import Mathlib

/-!
Verification of the BlueskyPostCollector ingest pipeline.

Shallow embedding of `src/app/post_ingestor.py` and `src/data/database.py`.
The network and the clock are modelled as explicit inputs:

* each account comes paired with the outcome of its feed fetch
  (`Except status feed`, since `_fetch_author_feed` either returns parsed
  JSON or raises);
* the metadata fetch outcome per URL is a `MetaOutcome`;
* `createdAt` parsing (`pd.to_datetime(..., errors="coerce")`) is an
  abstract function `String → Option Int` (`none` models `NaT`);
* the SQLite table is an `Option (List EnrichedRow)` (`none` models
  a store whose `posts` table does not exist).

Definitions keep the Python names where Lean allows it.
-/

/-- Helper for `pyStrip`: drop leading whitespace characters. -/
def dropLeadingWS : List Char → List Char
  | [] => []
  | c :: cs => if c.isWhitespace then dropLeadingWS cs else c :: cs

/-- Python `str.strip()` with no argument: drop whitespace from both ends
of the string. -/
def pyStrip (s : String) : String :=
  String.mk ((dropLeadingWS (dropLeadingWS s.data).reverse).reverse)

/-- One entry of the `feed` array returned by `app.bsky.feed.getAuthorFeed`,
restricted to the fields `_collect_posts` reads.  `Option` models a missing
JSON key (`dict.get`). `recordType` is `record["$type"]`; `uri` is
`post["uri"]`; `embedTitle`/`embedUri` are the `title`/`uri` keys of
`record["embed"]["external"]`. -/
structure FeedItem where
  recordType : Option String
  uri : Option String
  displayName : Option String
  text : String
  createdAt : Option String
  embedTitle : Option String
  embedUri : Option String
deriving DecidableEq

/-- A row of the raw dataframe built by `_collect_posts`
(post_ingestor.py lines 147-155). -/
structure PostRow where
  uuid : String
  author : String
  display_name : String
  title : String
  text : String
  timestamp : String
  external_url : String
deriving DecidableEq

/-- A row after `_enrich_dataframe`: the timestamp is parsed
(`none` = `NaT`) and the two metadata columns are added. -/
structure EnrichedRow where
  uuid : String
  author : String
  display_name : String
  title : String
  text : String
  timestamp : Option Int
  external_url : String
  page_title : String
  meta_description : String
deriving DecidableEq

/-- The part of an `EnrichedRow` that does not depend on the metadata
fetcher: everything except `page_title` and `meta_description`. -/
structure BaseRow where
  uuid : String
  author : String
  display_name : String
  title : String
  text : String
  timestamp : Option Int
  external_url : String
deriving DecidableEq

def baseOf (r : EnrichedRow) : BaseRow :=
  { uuid := r.uuid, author := r.author, display_name := r.display_name,
    title := r.title, text := r.text, timestamp := r.timestamp,
    external_url := r.external_url }

/-- Outcome of the HTTP GET + HTML parse inside `_fetch_metadata`
(post_ingestor.py lines 172-184).  `failure` is any exception raised inside
the `try` block (network error, timeout, non-2xx via `raise_for_status`,
parse error, `soup.title.string` being `None`).  `page` carries the title
tag string, the `og:description` content and the `description` content,
each `none` when absent. -/
inductive MetaOutcome where
  | failure
  | page (title : Option String) (ogDescription : Option String)
      (nameDescription : Option String)
deriving DecidableEq

/-- `_fetch_metadata` (post_ingestor.py lines 172-184): any failure yields
`("", "")`; otherwise the stripped title and the stripped description,
preferring `og:description` over `description` (the `or` on line 179-180). -/
def fetch_metadata (o : MetaOutcome) : String × String :=
  match o with
  | .failure => ("", "")
  | .page title og nameDesc =>
      ((title.map pyStrip).getD "",
       (((og.or nameDesc).map pyStrip)).getD "")

/-- An HTTP response as seen by `_fetch_author_feed`: a status code and a
body (already JSON-decoded, type parameter `α`). -/
structure HttpResponse (α : Type) where
  status : Nat
  body : α
deriving DecidableEq

/-- `_fetch_author_feed` (post_ingestor.py lines 112-121) run against a
scripted list of upstream responses.  On a 429 the code logs, sleeps 5
seconds and retries (`while True`); we record each performed sleep duration
in the returned list.  On any other status, `raise_for_status` raises for
4xx/5xx (`Except.error status`) and otherwise the JSON body is returned.
`none` models exhausting the script, i.e. the loop still running. -/
def fetch_author_feed {α : Type} : List (HttpResponse α) → Option (Except Nat α × List Nat)
  | [] => none
  | r :: rest =>
    if r.status = 429 then
      match fetch_author_feed rest with
      | none => none
      | some (res, waits) => some (res, 5 :: waits)
    else if 400 ≤ r.status ∧ r.status < 600 then
      some (Except.error r.status, [])
    else
      some (Except.ok r.body, [])

/-- The record type tag accepted by `_collect_posts` (line 142). -/
def postTypeTag : String := "app.bsky.feed.post"

/-- The check `rec.get("$type") != "app.bsky.feed.post"` (line 142),
as the kept condition. -/
def isPostItem (it : FeedItem) : Bool := it.recordType = some postTypeTag

/-- `uuid = post.get("uri", "")` (line 144). -/
def itemUuid (it : FeedItem) : String := it.uri.getD ""

/-- Building one dict of the `posts` list (post_ingestor.py lines 147-155). -/
def itemToRow (acct : String) (it : FeedItem) : PostRow :=
  { uuid := itemUuid it,
    author := acct,
    display_name := it.displayName.getD "",
    title := (it.embedTitle).getD "",
    text := pyStrip it.text,
    timestamp := it.createdAt.getD "",
    external_url := (it.embedUri).getD "" }

/-- The inner loop of `_collect_posts` for one account (lines 138-155):
skip items whose record type is not a post, skip items whose uuid is
already known, keep the rest in feed order. -/
def collectAccount (existing : List String) (acct : String) :
    List FeedItem → List PostRow
  | [] => []
  | it :: rest =>
    if isPostItem it then
      if itemUuid it ∈ existing then collectAccount existing acct rest
      else itemToRow acct it :: collectAccount existing acct rest
    else collectAccount existing acct rest

/-- The rows one configured account contributes to `posts`: nothing when its
fetch raised (the `except` on line 158 logs and continues), otherwise
`collectAccount` on the returned feed. -/
def accountRows (existing : List String) :
    String × Except Nat (List FeedItem) → List PostRow
  | (_, Except.error _) => []
  | (acct, Except.ok feed) => collectAccount existing acct feed

/-- `dedupGo seen l`: drop every row whose uuid already occurred (in `seen`
or earlier in `l`), keeping the first occurrence — the semantics of
`DataFrame.drop_duplicates(subset="uuid")` with the default `keep="first"`. -/
def dedupGo (seen : List String) : List PostRow → List PostRow
  | [] => []
  | r :: rs =>
      if r.uuid ∈ seen then dedupGo seen rs
      else r :: dedupGo (r.uuid :: seen) rs

/-- `drop_duplicates(subset="uuid")` on line 160. -/
def dedupByUuid (l : List PostRow) : List PostRow := dedupGo [] l

/-- `_collect_posts` (post_ingestor.py lines 133-160): accumulate each
surviving rows of each account in configured order (`posts.append` inside the
account loop), then deduplicate by uuid. -/
def collect_posts (existing : List String)
    (accounts : List (String × Except Nat (List FeedItem))) : List PostRow :=
  dedupByUuid (accounts.foldl (fun acc p => acc ++ accountRows existing p) [])

/-- `get_existing_uuids` (database.py lines 47-52): the empty set when the
table does not exist, otherwise the distinct uuid values of the table.
(The uuid column holds strings, never NULL, so `dropna` is the identity.) -/
def get_existing_uuids (table : Option (List EnrichedRow)) : List String :=
  match table with
  | none => []
  | some rows => (rows.map (fun r => r.uuid)).dedup

/-- One row of `_enrich_dataframe` (lines 162-170): parse the timestamp with
coercion and add the two metadata columns from `_fetch_metadata` applied to
`external_url`. -/
def enrichRow (parseTs : String → Option Int) (metaOf : String → MetaOutcome)
    (r : PostRow) : EnrichedRow :=
  let m := fetch_metadata (metaOf r.external_url)
  { uuid := r.uuid, author := r.author, display_name := r.display_name,
    title := r.title, text := r.text, timestamp := parseTs r.timestamp,
    external_url := r.external_url, page_title := m.1,
    meta_description := m.2 }

/-- `_enrich_dataframe` (post_ingestor.py lines 162-170).  The early return
on an empty dataframe coincides with mapping over the empty list. -/
def enrich_dataframe (parseTs : String → Option Int)
    (metaOf : String → MetaOutcome) (rows : List PostRow) : List EnrichedRow :=
  rows.map (enrichRow parseTs metaOf)

/-- The observable effects of one `run()` (post_ingestor.py lines 41-59):
the store afterwards, the batch handed to `append_dataframe` (`[]` when
append was never called), and whether `append_dataframe` and
`_enrich_dataframe` were invoked. -/
structure RunTrace where
  newStore : Option (List EnrichedRow)
  appended : List EnrichedRow
  appendCalled : Bool
  enrichCalled : Bool
deriving DecidableEq

/-- `run` (post_ingestor.py lines 41-59).  `existing` is reloaded from the
store first (line 43) and used both inside `_collect_posts` and for the
`isin` filter on line 51.  The guard on line 47 is `raw_df.empty or "uuid"
not in raw_df.columns`; a dataframe built from a nonempty `posts` list
always has the uuid column, so the guard holds exactly when no row was
collected.  A successful append puts the batch after the existing rows
(`to_sql(..., if_exists="append")`). -/
def run (parseTs : String → Option Int) (metaOf : String → MetaOutcome)
    (accounts : List (String × Except Nat (List FeedItem)))
    (store : Option (List EnrichedRow)) : RunTrace :=
  let existing := get_existing_uuids store
  let raw := collect_posts existing accounts
  if raw = [] then
    { newStore := store, appended := [], appendCalled := false,
      enrichCalled := false }
  else
    let newRows := raw.filter (fun r => r.uuid ∉ existing)
    let enriched := enrich_dataframe parseTs metaOf newRows
    if enriched = [] then
      { newStore := store, appended := [], appendCalled := false,
        enrichCalled := true }
    else
      { newStore := some (store.getD [] ++ enriched), appended := enriched,
        appendCalled := true, enrichCalled := true }

/-- What one scheduled iteration of `run_forever` does as seen from the loop: `run()` returns after `elapsed` seconds, or raises
`KeyboardInterrupt`, or raises some other (fatal) exception. -/
inductive IterOutcome where
  | completes (elapsed : ℚ)
  | keyboardInterrupt
  | fatalError (e : Nat)
deriving DecidableEq

/-- How `run_forever` left the loop: through the `except KeyboardInterrupt`
handler, by an uncaught exception propagating out, or still looping when
the scripted outcomes ran out. -/
inductive LoopExit where
  | cleanShutdown
  | crashed (e : Nat)
  | stillLooping
deriving DecidableEq

/-- Trace of `run_forever`: how many `run()` invocations started, the time
slept after each completed iteration (`0` models the skipped `time.sleep`
call when `to_sleep <= 0`), and how the loop ended. -/
structure LoopTrace where
  runsStarted : Nat
  sleeps : List ℚ
  exit : LoopExit
deriving DecidableEq

/-- The sleep performed after one completed iteration
(post_ingestor.py lines 71-75): `to_sleep = interval_minutes * 60 - elapsed`,
and `time.sleep(to_sleep)` only when `to_sleep > 0`. -/
def sleep_after (intervalMinutes : Nat) (elapsed : ℚ) : ℚ :=
  let toSleep := (intervalMinutes : ℚ) * 60 - elapsed
  if 0 < toSleep then toSleep else 0

/-- `run_forever` (post_ingestor.py lines 61-77) driven by a scripted list
of iteration outcomes.  The `try` wraps the whole `while True`; its only
handler is `except KeyboardInterrupt`, so any other exception raised by
`run()` leaves `run_forever` and no further iteration starts. -/
def run_forever (intervalMinutes : Nat) : List IterOutcome → LoopTrace
  | [] => { runsStarted := 0, sleeps := [], exit := .stillLooping }
  | o :: rest =>
    match o with
    | .keyboardInterrupt =>
        { runsStarted := 1, sleeps := [], exit := .cleanShutdown }
    | .fatalError e =>
        { runsStarted := 1, sleeps := [], exit := .crashed e }
    | .completes elapsed =>
        let t := run_forever intervalMinutes rest
        { runsStarted := t.runsStarted + 1,
          sleeps := sleep_after intervalMinutes elapsed :: t.sleeps,
          exit := t.exit }

/-! Derived notions used to state and prove the claims. -/

/-- The uuid column of a raw dataframe. -/
def uuidsOf (l : List PostRow) : List String := l.map (fun r => r.uuid)

/-- The uuids of the items of one feed that pass the record-type check:
these are exactly the ids `_collect_posts` considers for one account. -/
def feedCandidates (feed : List FeedItem) : List String :=
  (feed.filter isPostItem).map itemUuid

/-- The candidate uuids one configured account offers: none when its fetch
raises, otherwise the uuids of the type-matching items. -/
def accountCandidates : String × Except Nat (List FeedItem) → List String
  | (_, Except.error _) => []
  | (_, Except.ok feed) => feedCandidates feed

/-- All candidate uuids of a run, across accounts in configured order. -/
def candidateUuids
    (accounts : List (String × Except Nat (List FeedItem))) : List String :=
  (accounts.map accountCandidates).flatten

/-- A fixed timestamp parser used in concrete scenarios: everything is
unparseable (`pd.NaT`). -/
def tsNone : String → Option Int := fun _ => none

/-- A metadata environment in which every URL fetch fails. -/
def metaFail : String → MetaOutcome := fun _ => MetaOutcome.failure

/-! Lemmas about `_collect_posts`. -/

theorem feedCandidates_cons_pos {it : FeedItem} (rest : List FeedItem)
    (hp : isPostItem it) :
    feedCandidates (it :: rest) = itemUuid it :: feedCandidates rest := by
  simp [feedCandidates, List.filter_cons, hp]

theorem feedCandidates_cons_neg {it : FeedItem} (rest : List FeedItem)
    (hp : ¬ isPostItem it) :
    feedCandidates (it :: rest) = feedCandidates rest := by
  simp [feedCandidates, List.filter_cons, hp]

theorem uuids_collectAccount (E : List String) (a : String)
    (feed : List FeedItem) :
    uuidsOf (collectAccount E a feed)
      = (feedCandidates feed).filter (fun u => u ∉ E) := by
  induction feed with
  | nil => rfl
  | cons it rest ih =>
    by_cases hp : isPostItem it
    · by_cases hm : itemUuid it ∈ E
      · rw [collectAccount, if_pos hp, if_pos hm, feedCandidates_cons_pos rest hp,
          List.filter_cons]
        rw [if_neg (by simp [hm])]
        exact ih
      · rw [collectAccount, if_pos hp, if_neg hm, feedCandidates_cons_pos rest hp,
          List.filter_cons]
        rw [if_pos (by simp [hm])]
        rw [uuidsOf, List.map_cons, ← uuidsOf, ih]
        rfl
    · rw [collectAccount, if_neg hp, feedCandidates_cons_neg rest hp]
      exact ih

/-- The imperative accumulation `posts += rows(acct)` across the account
loop, as a flatten. -/
theorem foldl_append_rows {β γ : Type} (f : β → List γ) :
    ∀ (l : List β) (init : List γ),
      l.foldl (fun acc p => acc ++ f p) init = init ++ (l.map f).flatten := by
  intro l
  induction l with
  | nil => intro init; simp
  | cons x xs ih => intro init; simp [ih]

/-- The rows aggregated across all accounts, before deduplication. -/
def aggRows (E : List String)
    (accounts : List (String × Except Nat (List FeedItem))) : List PostRow :=
  (accounts.map (accountRows E)).flatten

theorem collect_posts_eq (E : List String)
    (accounts : List (String × Except Nat (List FeedItem))) :
    collect_posts E accounts = dedupByUuid (aggRows E accounts) := by
  unfold collect_posts aggRows
  rw [foldl_append_rows]
  rfl

theorem uuids_aggRows (E : List String)
    (accounts : List (String × Except Nat (List FeedItem))) :
    uuidsOf (aggRows E accounts)
      = (candidateUuids accounts).filter (fun u => u ∉ E) := by
  induction accounts with
  | nil => rfl
  | cons p ps ih =>
    have hhead : uuidsOf (accountRows E p)
        = (accountCandidates p).filter (fun u => u ∉ E) := by
      rcases p with ⟨a, res⟩
      cases res with
      | error e => rfl
      | ok feed => exact uuids_collectAccount E a feed
    have h1 : aggRows E (p :: ps) = accountRows E p ++ aggRows E ps := by
      simp [aggRows]
    have h2 : candidateUuids (p :: ps)
        = accountCandidates p ++ candidateUuids ps := by
      simp [candidateUuids]
    rw [h1, h2, List.filter_append, ← hhead, ← ih]
    simp [uuidsOf]

theorem mem_uuids_dedupGo (u : String) :
    ∀ (l : List PostRow) (seen : List String),
      u ∈ uuidsOf (dedupGo seen l) ↔ u ∈ uuidsOf l ∧ u ∉ seen := by
  intro l
  induction l with
  | nil => intro seen; simp [dedupGo, uuidsOf]
  | cons r rs ih =>
    intro seen
    by_cases hm : r.uuid ∈ seen
    · rw [dedupGo, if_pos hm, ih]
      by_cases hu : u = r.uuid
      · subst hu
        simp [uuidsOf, hm]
      · simp [uuidsOf, hu]
    · rw [dedupGo, if_neg hm]
      by_cases hu : u = r.uuid
      · subst hu
        simp [uuidsOf, hm]
      · simp only [uuidsOf, List.map_cons, List.mem_cons, hu, false_or]
        rw [← uuidsOf, ← uuidsOf, ih]
        simp [hu]

theorem uuids_dedupGo_nodup :
    ∀ (l : List PostRow) (seen : List String),
      (uuidsOf (dedupGo seen l)).Nodup := by
  intro l
  induction l with
  | nil => intro seen; simp [dedupGo, uuidsOf]
  | cons r rs ih =>
    intro seen
    by_cases hm : r.uuid ∈ seen
    · rw [dedupGo, if_pos hm]; exact ih seen
    · rw [dedupGo, if_neg hm]
      simp only [uuidsOf, List.map_cons, List.nodup_cons]
      refine ⟨?_, ih _⟩
      intro hmem
      rw [← uuidsOf, mem_uuids_dedupGo] at hmem
      exact hmem.2 (List.mem_cons_self _ _)

theorem dedupGo_sublist :
    ∀ (l : List PostRow) (seen : List String), (dedupGo seen l).Sublist l := by
  intro l
  induction l with
  | nil => intro seen; simp [dedupGo]
  | cons r rs ih =>
    intro seen
    by_cases hm : r.uuid ∈ seen
    · rw [dedupGo, if_pos hm]; exact (ih seen).cons r
    · rw [dedupGo, if_neg hm]; exact (ih _).cons₂ r

theorem mem_uuids_collect (u : String) (E : List String)
    (accounts : List (String × Except Nat (List FeedItem))) :
    u ∈ uuidsOf (collect_posts E accounts)
      ↔ u ∈ candidateUuids accounts ∧ u ∉ E := by
  rw [collect_posts_eq, dedupByUuid, mem_uuids_dedupGo, uuids_aggRows]
  simp [List.mem_filter]

theorem mem_collect_not_existing (r : PostRow) (E : List String)
    (accounts : List (String × Except Nat (List FeedItem)))
    (hr : r ∈ collect_posts E accounts) : r.uuid ∉ E := by
  rw [collect_posts_eq, dedupByUuid] at hr
  have hr2 : r ∈ aggRows E accounts := (dedupGo_sublist _ _).subset hr
  have hu : r.uuid ∈ uuidsOf (aggRows E accounts) := by
    exact List.mem_map.mpr ⟨r, hr2, rfl⟩
  rw [uuids_aggRows] at hu
  have := (List.mem_filter.mp hu).2
  simpa using this

/-! Lemmas about `run`. -/

theorem euuids_enrich (parseTs : String → Option Int)
    (metaOf : String → MetaOutcome) (l : List PostRow) :
    (enrich_dataframe parseTs metaOf l).map (fun r => r.uuid) = uuidsOf l := by
  rw [enrich_dataframe, List.map_map]
  rfl

/-- Every row of `_collect_posts` output already has an unknown uuid, so the
`isin` filter on line 51 keeps everything: `new_df = raw_df`. -/
theorem filter_collect_eq_self (E : List String)
    (accounts : List (String × Except Nat (List FeedItem))) :
    (collect_posts E accounts).filter (fun r => r.uuid ∉ E)
      = collect_posts E accounts := by
  rw [List.filter_eq_self]
  intro r hr
  simpa using mem_collect_not_existing r E accounts hr

/-- `run` in closed form: either the empty short-circuit, or an append of
the enriched collected rows. -/
theorem run_eq (parseTs : String → Option Int) (metaOf : String → MetaOutcome)
    (accounts : List (String × Except Nat (List FeedItem)))
    (store : Option (List EnrichedRow)) :
    run parseTs metaOf accounts store =
      (if collect_posts (get_existing_uuids store) accounts = [] then
        { newStore := store, appended := [], appendCalled := false,
          enrichCalled := false }
      else
        { newStore := some (store.getD [] ++
            enrich_dataframe parseTs metaOf
              (collect_posts (get_existing_uuids store) accounts)),
          appended := enrich_dataframe parseTs metaOf
            (collect_posts (get_existing_uuids store) accounts),
          appendCalled := true, enrichCalled := true } : RunTrace) := by
  unfold run
  by_cases h : collect_posts (get_existing_uuids store) accounts = []
  · simp [h]
  · rw [if_neg h, if_neg h, filter_collect_eq_self]
    rw [if_neg (by
      intro hnil
      rw [enrich_dataframe, List.map_eq_nil_iff] at hnil
      exact h hnil)]

/-- After one `run`, every candidate uuid of the (unchanged) feed
environment is among the stored uuids. -/
theorem candidate_mem_after_run (parseTs : String → Option Int)
    (metaOf : String → MetaOutcome)
    (accounts : List (String × Except Nat (List FeedItem)))
    (store : Option (List EnrichedRow)) (u : String)
    (hu : u ∈ candidateUuids accounts) :
    u ∈ get_existing_uuids ((run parseTs metaOf accounts store).newStore) := by
  rw [run_eq]
  by_cases hE : u ∈ get_existing_uuids store
  · by_cases h : collect_posts (get_existing_uuids store) accounts = []
    · simpa [h] using hE
    · rw [if_neg h]
      cases store with
      | none => simp [get_existing_uuids] at hE
      | some rows =>
          simp only [get_existing_uuids, List.mem_dedup] at hE ⊢
          simp [List.mem_append, hE]
  · have hmem : u ∈ uuidsOf (collect_posts (get_existing_uuids store) accounts) :=
      (mem_uuids_collect u _ accounts).mpr ⟨hu, hE⟩
    have h : collect_posts (get_existing_uuids store) accounts ≠ [] := by
      intro hnil
      rw [hnil] at hmem
      simp [uuidsOf] at hmem
    rw [if_neg h]
    simp only [get_existing_uuids, List.mem_dedup, List.map_append,
      List.mem_append]
    right
    rw [euuids_enrich]
    exact hmem

/-! Concrete scenario inputs. -/

/-- A well-formed upstream post item carrying the given `uri`. -/
def mkPost (u : String) : FeedItem :=
  { recordType := some postTypeTag, uri := some u,
    displayName := some "Display", text := "hello",
    createdAt := some "2024-01-01T00:00:00Z", embedTitle := none,
    embedUri := none }

/-- An upstream item of post type whose `uri` key is missing. -/
def noUriItem : FeedItem :=
  { recordType := some postTypeTag, uri := none, displayName := none,
    text := "no uri", createdAt := none, embedTitle := none,
    embedUri := none }

/-- A stored record with the empty id. -/
def emptyIdRow : EnrichedRow :=
  { uuid := "", author := "acctA", display_name := "", title := "",
    text := "", timestamp := none, external_url := "", page_title := "",
    meta_description := "" }

/-- A stored record with id `p1`. -/
def p1Row : EnrichedRow :=
  { uuid := "p1", author := "acctA", display_name := "", title := "",
    text := "", timestamp := none, external_url := "", page_title := "",
    meta_description := "" }

/-- The reference end-to-end scenario of the spec: account A returns
p1, p2, p3 and account B returns p3, p4. -/
def scenarioAccounts : List (String × Except Nat (List FeedItem)) :=
  [("acctA", Except.ok [mkPost "p1", mkPost "p2", mkPost "p3"]),
   ("acctB", Except.ok [mkPost "p3", mkPost "p4"])]

/-! The claims. -/

/-- Claim C1, counterexample: on an empty store, a fetched post of the
right record type whose `uri` key is missing is mapped to the id `""`,
survives every filter, and is handed to `append_dataframe`: the batch
consists of exactly the empty-id record, so the claim "a post with empty
or missing id is never included in the batch" is false. -/
theorem c1_empty_id_counterexample :
    ((run tsNone metaFail [("acctA", Except.ok [noUriItem])]
        (some [])).appended).map (fun r => r.uuid) = [""] ∧
    (run tsNone metaFail [("acctA", Except.ok [noUriItem])]
        (some [])).appendCalled = true := by
  exact ⟨rfl, rfl⟩

/-- Claim C1 (amended): a post with an empty or missing `uri` is mapped to
the id `""` and then treated like any other post; it is kept out of the
batch handed to the Persistence Layer only by the generic known-id filters,
i.e. exactly when the empty id is already among the stored ids. -/
theorem c1_empty_id_amended (parseTs : String → Option Int)
    (metaOf : String → MetaOutcome)
    (accounts : List (String × Except Nat (List FeedItem)))
    (store : Option (List EnrichedRow))
    (h : "" ∈ get_existing_uuids store) :
    "" ∉ ((run parseTs metaOf accounts store).appended).map
        (fun r => r.uuid) := by
  rw [run_eq]
  by_cases hc : collect_posts (get_existing_uuids store) accounts = []
  · simp [hc]
  · rw [if_neg hc]
    intro hmem
    have h1 : "" ∈ uuidsOf (collect_posts (get_existing_uuids store)
        accounts) := by
      rw [← euuids_enrich parseTs metaOf]
      exact hmem
    exact ((mem_uuids_collect "" _ accounts).mp h1).2 h

/-- Claim C1 witness: with `""` already stored, no empty-id record reaches
the append batch. -/
theorem c1_empty_id_witness :
    "" ∉ ((run tsNone metaFail [("acctA", Except.ok [noUriItem, mkPost "p1"])]
        (some [emptyIdRow])).appended).map (fun r => r.uuid) :=
  c1_empty_id_amended tsNone metaFail
    [("acctA", Except.ok [noUriItem, mkPost "p1"])] (some [emptyIdRow])
    (by decide)

/-- Claim C3: per-account failure isolation.  A run whose account list has
one account raising a fetch error anywhere in the middle is identical to
the run with that account removed: the failing account contributes no
rows, and every account after it is processed exactly as it would have
been. -/
theorem c3_account_failure_isolation (parseTs : String → Option Int)
    (metaOf : String → MetaOutcome)
    (pre post : List (String × Except Nat (List FeedItem)))
    (a : String) (e : Nat) (store : Option (List EnrichedRow)) :
    run parseTs metaOf (pre ++ (a, Except.error e) :: post) store
      = run parseTs metaOf (pre ++ post) store := by
  have hagg : ∀ E : List String,
      aggRows E (pre ++ (a, Except.error e) :: post)
        = aggRows E (pre ++ post) := by
    intro E
    simp [aggRows, accountRows]
  have hcp : ∀ E : List String,
      collect_posts E (pre ++ (a, Except.error e) :: post)
        = collect_posts E (pre ++ post) := by
    intro E
    rw [collect_posts_eq, collect_posts_eq, hagg]
  rw [run_eq, run_eq, hcp]

/-- Claim C4, counterexample: when `run()` of the first iteration raises a
fatal (non-KeyboardInterrupt) error, `run_forever` terminates with that
error propagating: the second scheduled iteration never starts, so the
claim that the loop logs the error and proceeds is false. -/
theorem c4_loop_crash_counterexample :
    run_forever 5 [IterOutcome.fatalError 7, IterOutcome.completes 0]
      = { runsStarted := 1, sleeps := [], exit := LoopExit.crashed 7 } := by
  rfl

/-- Claim C4 (amended): a fatal error from the `run()` of one iteration does
terminate the loop: only `KeyboardInterrupt` is caught, so after any number
of completed iterations a fatal error propagates out of `run_forever` and
no later scheduled iteration starts. -/
theorem c4_loop_crash_amended (intervalMinutes : Nat) (es : List ℚ)
    (e : Nat) (rest : List IterOutcome) :
    run_forever intervalMinutes
        (es.map IterOutcome.completes ++ IterOutcome.fatalError e :: rest)
      = { runsStarted := es.length + 1,
          sleeps := es.map (sleep_after intervalMinutes),
          exit := LoopExit.crashed e } := by
  induction es with
  | nil => rfl
  | cons q qs ih => simp [run_forever, ih]

/-- Claim C5: when the collected-and-deduplicated collection is empty
(every fetch failed, every post already known, or any mixture), `run`
returns without invoking `_enrich_dataframe` and without calling
`append_dataframe`, leaving the store untouched. -/
theorem c5_empty_short_circuit (parseTs : String → Option Int)
    (metaOf : String → MetaOutcome)
    (accounts : List (String × Except Nat (List FeedItem)))
    (store : Option (List EnrichedRow))
    (h : collect_posts (get_existing_uuids store) accounts = []) :
    run parseTs metaOf accounts store
      = { newStore := store, appended := [], appendCalled := false,
          enrichCalled := false } := by
  rw [run_eq, if_pos h]

/-- Claim C5 witness: one account raising an error and one account whose
only post is already stored; nothing is collected and the run
short-circuits. -/
theorem c5_empty_short_circuit_witness :
    run tsNone metaFail
        [("acctA", Except.error 500), ("acctB", Except.ok [mkPost "p1"])]
        (some [p1Row])
      = { newStore := some [p1Row], appended := [], appendCalled := false,
          enrichCalled := false } :=
  c5_empty_short_circuit tsNone metaFail
    [("acctA", Except.error 500), ("acctB", Except.ok [mkPost "p1"])]
    (some [p1Row]) (by decide)

/-- Claim C9: scheduler spacing.  The sleep after a completed iteration is
`max 0 (intervalMinutes*60 - elapsed)`; in the loop each completed
iteration contributes exactly that sleep; a 20-second run with a 1-minute
interval sleeps 40 seconds, so the next run starts 60 >= 40 seconds after
the previous start; a run at least as long as the interval is followed by
no sleep. -/
theorem c9_scheduler_spacing :
    (∀ (i : Nat) (e : ℚ), sleep_after i e = max 0 ((i : ℚ) * 60 - e)) ∧
    (∀ (i : Nat) (e : ℚ) (rest : List IterOutcome),
      (run_forever i (IterOutcome.completes e :: rest)).sleeps
        = sleep_after i e :: (run_forever i rest).sleeps) ∧
    sleep_after 1 20 = 40 ∧
    (40 : ℚ) ≤ 20 + sleep_after 1 20 ∧
    (∀ (i : Nat) (e : ℚ), (i : ℚ) * 60 ≤ e → sleep_after i e = 0) := by
  refine ⟨?_, ?_, ?_, ?_, ?_⟩
  · intro i e
    simp only [sleep_after]
    rcases le_or_lt ((i : ℚ) * 60 - e) 0 with h | h
    · rw [if_neg (not_lt.mpr h), max_eq_left h]
    · rw [if_pos h, max_eq_right h.le]
  · intro i e rest
    rfl
  · norm_num [sleep_after]
  · norm_num [sleep_after]
  · intro i e h
    simp only [sleep_after]
    rw [if_neg (by simpa using sub_nonpos.mpr h |> not_lt.mpr)]

/-- Claim C9 witness: a 2-minute interval with a 150-second run sleeps 0. -/
theorem c9_scheduler_spacing_witness : sleep_after 2 150 = 0 :=
  c9_scheduler_spacing.2.2.2.2 2 150 (by norm_num)

/-- Claim C10: `get_existing_uuids` on a store whose table does not exist
returns the empty set (the `has_table` guard, database.py line 49, makes
this total instead of raising), and consequently a first-ever run behaves
exactly like a run over an existing empty table: the same batch is (or is
not) appended. -/
theorem c10_missing_table_empty :
    get_existing_uuids none = [] ∧
    (∀ (parseTs : String → Option Int) (metaOf : String → MetaOutcome)
        (accounts : List (String × Except Nat (List FeedItem))),
      (run parseTs metaOf accounts none).appended
        = (run parseTs metaOf accounts (some [])).appended ∧
      (run parseTs metaOf accounts none).appendCalled
        = (run parseTs metaOf accounts (some [])).appendCalled) := by
  refine ⟨rfl, ?_⟩
  intro parseTs metaOf accounts
  rw [run_eq, run_eq]
  have hE : get_existing_uuids (none : Option (List EnrichedRow))
      = get_existing_uuids (some []) := rfl
  rw [hE]
  by_cases hc : collect_posts (get_existing_uuids
      (some ([] : List EnrichedRow))) accounts = []
  · rw [if_pos hc, if_pos hc]
    exact ⟨rfl, rfl⟩
  · rw [if_neg hc, if_neg hc]
    exact ⟨rfl, rfl⟩

/-- Claim C2: idempotence across runs.  With the store and the upstream
feed environment fixed, the second `run` appends zero rows and leaves the
store unchanged; the batch of the first run contains each id at most once; and
after the first run every candidate id of the feed is among the stored
ids.  This holds because each run reloads the full id set from the store
(post_ingestor.py line 43) before filtering. -/
theorem c2_idempotent_runs (parseTs : String → Option Int)
    (metaOf : String → MetaOutcome)
    (accounts : List (String × Except Nat (List FeedItem)))
    (store : Option (List EnrichedRow)) :
    (run parseTs metaOf accounts
        ((run parseTs metaOf accounts store).newStore)).appended = [] ∧
    (run parseTs metaOf accounts
        ((run parseTs metaOf accounts store).newStore)).appendCalled
      = false ∧
    (run parseTs metaOf accounts
        ((run parseTs metaOf accounts store).newStore)).newStore
      = (run parseTs metaOf accounts store).newStore ∧
    (((run parseTs metaOf accounts store).appended).map
        (fun r => r.uuid)).Nodup ∧
    ∀ u ∈ candidateUuids accounts,
      u ∈ get_existing_uuids ((run parseTs metaOf accounts store).newStore)
    := by
  have hraw2 : collect_posts
      (get_existing_uuids ((run parseTs metaOf accounts store).newStore))
      accounts = [] := by
    rw [List.eq_nil_iff_forall_not_mem]
    intro r hr
    have hu : r.uuid ∈ uuidsOf (collect_posts
        (get_existing_uuids ((run parseTs metaOf accounts store).newStore))
        accounts) := List.mem_map.mpr ⟨r, hr, rfl⟩
    have h2 := (mem_uuids_collect _ _ _).mp hu
    exact h2.2 (candidate_mem_after_run parseTs metaOf accounts store _ h2.1)
  have hx : run parseTs metaOf accounts
      ((run parseTs metaOf accounts store).newStore)
      = { newStore := (run parseTs metaOf accounts store).newStore,
          appended := [], appendCalled := false, enrichCalled := false } := by
    rw [run_eq parseTs metaOf accounts
      ((run parseTs metaOf accounts store).newStore), if_pos hraw2]
  refine ⟨by rw [hx], by rw [hx], by rw [hx], ?_, ?_⟩
  · rw [run_eq]
    by_cases hc : collect_posts (get_existing_uuids store) accounts = []
    · simp [hc]
    · rw [if_neg hc]
      show ((enrich_dataframe parseTs metaOf
          (collect_posts (get_existing_uuids store) accounts)).map
          (fun r => r.uuid)).Nodup
      rw [euuids_enrich, collect_posts_eq]
      exact uuids_dedupGo_nodup _ _
  · intro u hu
    exact candidate_mem_after_run parseTs metaOf accounts store u hu

/-- Claim C2 witness: after one run of the reference scenario on an empty
table, id p1 is among the stored ids. -/
theorem c2_idempotent_witness :
    "p1" ∈ get_existing_uuids
      ((run tsNone metaFail scenarioAccounts (some [])).newStore) :=
  (c2_idempotent_runs tsNone metaFail scenarioAccounts
    (some [])).2.2.2.2 "p1" (by decide)

/-- Claim C6, counterexample: one rate-limit response followed by a
non-rate-limit 404 response.  The cooldown wait happens, but then
`raise_for_status` raises on the 404 instead of returning the eventual
response, so "then returns the eventual response" is false for an
arbitrary non-rate-limit response. -/
theorem c6_rate_limit_counterexample :
    fetch_author_feed
        [({ status := 429, body := 0 } : HttpResponse Nat),
         { status := 404, body := 7 }]
      = some (Except.error 404, [5]) := by
  rfl

/-- Claim C6 (amended): after any number N of rate-limit responses the code
never raises on them and performs exactly N five-second cooldown waits;
when the eventual non-rate-limit response is successful (status < 400) its
body is returned, while an eventual error status (400-599) is raised
instead, still after exactly N waits. -/
theorem c6_rate_limit_amended {α : Type} (pre : List (HttpResponse α))
    (st : Nat) (body : α) (rest : List (HttpResponse α))
    (hpre : ∀ r ∈ pre, r.status = 429) (hst : st ≠ 429) :
    (st < 400 →
      fetch_author_feed (pre ++ { status := st, body := body } :: rest)
        = some (Except.ok body, List.replicate pre.length 5)) ∧
    (400 ≤ st → st < 600 →
      fetch_author_feed (pre ++ { status := st, body := body } :: rest)
        = some (Except.error st, List.replicate pre.length 5)) := by
  induction pre with
  | nil =>
    constructor
    · intro hlt
      rw [List.nil_append]
      show fetch_author_feed _ = _
      rw [fetch_author_feed, if_neg hst,
        if_neg (fun hcon => absurd (hcon.1 : 400 ≤ st) (by omega))]
      rfl
    · intro h4 h6
      rw [List.nil_append]
      rw [fetch_author_feed, if_neg hst, if_pos ⟨h4, h6⟩]
      rfl
  | cons r rs ih =>
    have hr : r.status = 429 := hpre r (List.mem_cons_self r rs)
    have hrs : ∀ x ∈ rs, x.status = 429 := fun x hx =>
      hpre x (List.mem_cons.mpr (Or.inr hx))
    obtain ⟨iha, ihb⟩ := ih hrs
    constructor
    · intro hlt
      rw [List.cons_append, fetch_author_feed, if_pos hr, iha hlt]
      rfl
    · intro h4 h6
      rw [List.cons_append, fetch_author_feed, if_pos hr, ihb h4 h6]
      rfl

/-- Claim C6 witness: two rate limits then a 200 with body 42: two
five-second waits and the body is returned. -/
theorem c6_rate_limit_witness :
    fetch_author_feed
        [({ status := 429, body := 3 } : HttpResponse Nat),
         { status := 429, body := 3 }, { status := 200, body := 42 }]
      = some (Except.ok 42, [5, 5]) := by
  have h := (c6_rate_limit_amended
      [({ status := 429, body := 3 } : HttpResponse Nat),
       { status := 429, body := 3 }]
      200 42 [] (by decide) (by decide)).1 (by norm_num)
  simpa using h

/-- First-occurrence characterisation of `dedupGo`: for each id, the rows
surviving deduplication with that id are exactly the first occurrence in
input order (none when the id is in `seen`). -/
theorem dedupGo_filter_take (u : String) :
    ∀ (l : List PostRow) (seen : List String),
      (dedupGo seen l).filter (fun r => r.uuid = u)
        = if u ∈ seen then []
          else (l.filter (fun r => r.uuid = u)).take 1 := by
  intro l
  induction l with
  | nil =>
    intro seen
    by_cases hs : u ∈ seen <;> simp [dedupGo, hs]
  | cons r rs ih =>
    intro seen
    by_cases hu : r.uuid = u
    · subst hu
      by_cases hm : r.uuid ∈ seen <;>
        simp [dedupGo, List.filter_cons, hm, ih, List.mem_cons]
    · have hu2 : ¬ (u = r.uuid) := fun h => hu h.symm
      by_cases hm : r.uuid ∈ seen <;>
        simp [dedupGo, List.filter_cons, hm, hu, hu2, ih, List.mem_cons]

/-- Claim C7: aggregation dedup is deterministic first-occurrence-wins.
In general, for every id exactly the first-collected row with that id
survives `drop_duplicates`; in the reference scenario (A returns p1,p2,p3;
B returns p3,p4; store empty) exactly the four posts p1..p4 are persisted,
with p3 attributed to account A. -/
theorem c7_first_occurrence_dedup :
    (∀ (l : List PostRow) (u : String),
      (dedupByUuid l).filter (fun r => r.uuid = u)
        = (l.filter (fun r => r.uuid = u)).take 1) ∧
    ((run tsNone metaFail scenarioAccounts (some [])).appended).map
        (fun r => (r.uuid, r.author))
      = [("p1", "acctA"), ("p2", "acctA"), ("p3", "acctA"),
         ("p4", "acctB")] := by
  constructor
  · intro l u
    rw [dedupByUuid, dedupGo_filter_take]
    simp
  · rfl

/-- Claim C8: metadata fetch total absorption.  `_fetch_metadata` returns
`("", "")` on any failure; the batch handed to the Persistence Layer is,
up to the two metadata columns, independent of the metadata fetcher; and
with an always-failing metadata fetcher every appended record carries
empty `page_title` and `meta_description`. -/
theorem c8_metadata_absorption :
    fetch_metadata MetaOutcome.failure = ("", "") ∧
    (∀ (parseTs : String → Option Int) (metaOf : String → MetaOutcome)
        (accounts : List (String × Except Nat (List FeedItem)))
        (store : Option (List EnrichedRow)),
      ((run parseTs metaFail accounts store).appended).map baseOf
        = ((run parseTs metaOf accounts store).appended).map baseOf) ∧
    (∀ (parseTs : String → Option Int)
        (accounts : List (String × Except Nat (List FeedItem)))
        (store : Option (List EnrichedRow)) (r : EnrichedRow),
      r ∈ (run parseTs metaFail accounts store).appended →
        r.page_title = "" ∧ r.meta_description = "") := by
  refine ⟨rfl, ?_, ?_⟩
  · intro parseTs metaOf accounts store
    rw [run_eq, run_eq]
    by_cases hc : collect_posts (get_existing_uuids store) accounts = []
    · simp [hc]
    · rw [if_neg hc, if_neg hc]
      show (enrich_dataframe parseTs metaFail
            (collect_posts (get_existing_uuids store) accounts)).map baseOf
          = (enrich_dataframe parseTs metaOf
            (collect_posts (get_existing_uuids store) accounts)).map baseOf
      rw [enrich_dataframe, enrich_dataframe, List.map_map, List.map_map]
      rfl
  · intro parseTs accounts store r hr
    rw [run_eq] at hr
    by_cases hc : collect_posts (get_existing_uuids store) accounts = []
    · rw [if_pos hc] at hr
      simp at hr
    · rw [if_neg hc] at hr
      have hr2 : r ∈ enrich_dataframe parseTs metaFail
          (collect_posts (get_existing_uuids store) accounts) := hr
      rw [enrich_dataframe] at hr2
      obtain ⟨p, _, hpr⟩ := List.mem_map.mp hr2
      rw [← hpr]
      exact ⟨rfl, rfl⟩

/-- Claim C8 witness: with an always-failing metadata fetcher the single
surviving post of a one-account scenario is appended with empty metadata
fields. -/
theorem c8_metadata_absorption_witness :
    (enrichRow tsNone metaFail (itemToRow "acctA" (mkPost "p1"))).page_title
        = "" ∧
    (enrichRow tsNone metaFail
        (itemToRow "acctA" (mkPost "p1"))).meta_description = "" :=
  c8_metadata_absorption.2.2 tsNone [("acctA", Except.ok [mkPost "p1"])]
    (some []) (enrichRow tsNone metaFail (itemToRow "acctA" (mkPost "p1")))
    (by decide)
